import Mathlib

/-!
Verification of the MCP bridge and catalog store of `codegang-datasource`.

The definitions below are a shallow embedding of the Rust sources:

* `src/model.rs`    — the catalog entity types (`Datasource`, `ServiceDefinition`,
  `QueueContract`, `NosqlContract`, `ProtoContract`, schemas);
* `src/storage.rs`  — the store operations (`get_*`, `upsert_*`, `delete_*`,
  `replace_datasource`), written as pure state-passing functions on `Datasource`
  (the Rust code mutates a `RwLock<Datasource>`; file persistence via `save()` is
  a side channel outside the in-memory state and is not part of the state here);
* `src/handlers/mcp.rs` — the JSON-RPC dispatcher (`handle_method`,
  `handle_initialize`, `handle_tools_list`, `handle_tools_call`), the
  message-submit endpoint (`message_handler`) and the SSE session lifecycle.

JSON values are modelled by the inductive `Json`.  Numbers are carried as `Int`:
no behaviour checked here depends on floating-point payloads.  Rust's
`HashMap<String, String>` metadata field is carried as an association list,
a deterministic stand-in for a map whose iteration order Rust leaves unspecified;
no checked behaviour depends on that order.
-/

namespace Codegang

/-- JSON values (`serde_json::Value`), with numbers restricted to integers. -/
inductive Json where
  | null
  | bool (b : Bool)
  | num (n : Int)
  | str (s : String)
  | arr (elems : List Json)
  | obj (fields : List (String × Json))

/-- `Value::get(key)` on an object: the first field with that key (objects built
by this development never repeat a key). Non-objects give `none`. -/
def Json.getField : Json → String → Option Json
  | .obj fields, k => (fields.find? (fun f => f.1 == k)).map (fun f => f.2)
  | _, _ => none

/-- `Value::as_str()`. -/
def Json.asString : Json → Option String
  | .str s => some s
  | _ => none

-- ── src/model.rs ─────────────────────────────────────────────────

/-- `ServiceQueueConfig` of `src/model.rs`. -/
structure ServiceQueueConfig where
  publish_queues : Option (List String)
  subscribe_queues : Option (List String)
deriving DecidableEq

/-- `ServiceDefinition` of `src/model.rs`.  `metadata` is Rust's
`HashMap<String, String>` as an association list. -/
structure ServiceDefinition where
  name : String
  service_type : String
  github_repo : Option String
  description : Option String
  grpc_servers : Option (List String)
  grpc_clients : Option (List String)
  queue : Option ServiceQueueConfig
  is_http_server : Option Bool
  metadata : List (String × String)
deriving DecidableEq

/-- `SchemaField` of `src/model.rs`. -/
structure SchemaField where
  name : String
  field_type : String
  description : Option String
deriving DecidableEq

/-- `MessageSchema` of `src/model.rs`. -/
structure MessageSchema where
  name : String
  fields : List SchemaField
  notes : Option String
deriving DecidableEq

/-- `QueueContract` of `src/model.rs`. -/
structure QueueContract where
  topic_name : String
  description : Option String
  message_schema : Option MessageSchema
deriving DecidableEq

/-- `NosqlContract` of `src/model.rs`. -/
structure NosqlContract where
  entity_name : String
  table_name : Option String
  description : Option String
  schema : Option MessageSchema
deriving DecidableEq

/-- `ProtoContract` of `src/model.rs`. -/
structure ProtoContract where
  name : String
  raw_proto : String
deriving DecidableEq

/-- `Datasource` of `src/model.rs`. -/
structure Datasource where
  services : List ServiceDefinition
  queue_contracts : List QueueContract
  nosql_contracts : List NosqlContract
  proto_contracts : List ProtoContract
deriving DecidableEq

/-- The empty datasource `AppState::new` falls back to when no file loads. -/
def emptyDatasource : Datasource :=
  { services := [], queue_contracts := [], nosql_contracts := [], proto_contracts := [] }

-- ── src/storage.rs: reads ────────────────────────────────────────

/-- `AppState::get_datasource`. -/
def get_datasource (ds : Datasource) : Datasource := ds

/-- `AppState::get_services`. -/
def get_services (ds : Datasource) : List ServiceDefinition := ds.services

/-- `AppState::get_service`: first service whose `name` matches. -/
def get_service (ds : Datasource) (name : String) : Option ServiceDefinition :=
  ds.services.find? (fun s => s.name == name)

/-- `AppState::get_queue_contracts`. -/
def get_queue_contracts (ds : Datasource) : List QueueContract := ds.queue_contracts

/-- `AppState::get_queue_contract`. -/
def get_queue_contract (ds : Datasource) (topic : String) : Option QueueContract :=
  ds.queue_contracts.find? (fun q => q.topic_name == topic)

/-- `AppState::get_nosql_contracts`. -/
def get_nosql_contracts (ds : Datasource) : List NosqlContract := ds.nosql_contracts

/-- `AppState::get_nosql_contract`. -/
def get_nosql_contract (ds : Datasource) (entity : String) : Option NosqlContract :=
  ds.nosql_contracts.find? (fun n => n.entity_name == entity)

/-- `AppState::get_proto_contracts`. -/
def get_proto_contracts (ds : Datasource) : List ProtoContract := ds.proto_contracts

/-- `AppState::get_proto_contract`. -/
def get_proto_contract (ds : Datasource) (name : String) : Option ProtoContract :=
  ds.proto_contracts.find? (fun p => p.name == name)

-- ── src/storage.rs: writes ───────────────────────────────────────

/-- `AppState::replace_datasource`: `*data = ds`. -/
def replace_datasource (_old : Datasource) (ds : Datasource) : Datasource := ds

/-- `iter().position(pred)` of Rust, as used by every upsert and delete. -/
def position {α : Type} (pred : α → Bool) (l : List α) : Option Nat :=
  l.findIdx? pred

/-- `AppState::upsert_service`: replace the first entry whose key matches
(`data.services[idx] = svc`), else push. -/
def upsert_service (ds : Datasource) (svc : ServiceDefinition) : Datasource :=
  match position (fun s => s.name == svc.name) ds.services with
  | some idx => { ds with services := ds.services.set idx svc }
  | none => { ds with services := ds.services ++ [svc] }

/-- `AppState::delete_service`: `Err` when no entry matches, else remove the
first match (`Vec::remove(idx)`).  The returned `Datasource` is the stored
state after the call (unchanged on error). -/
def delete_service (ds : Datasource) (name : String) :
    Except String Unit × Datasource :=
  match position (fun s => s.name == name) ds.services with
  | none => (.error ("Service '" ++ name ++ "' not found"), ds)
  | some idx => (.ok (), { ds with services := ds.services.eraseIdx idx })

/-- `AppState::upsert_queue_contract`. -/
def upsert_queue_contract (ds : Datasource) (qc : QueueContract) : Datasource :=
  match position (fun q => q.topic_name == qc.topic_name) ds.queue_contracts with
  | some idx => { ds with queue_contracts := ds.queue_contracts.set idx qc }
  | none => { ds with queue_contracts := ds.queue_contracts ++ [qc] }

/-- `AppState::delete_queue_contract`. -/
def delete_queue_contract (ds : Datasource) (topic : String) :
    Except String Unit × Datasource :=
  match position (fun q => q.topic_name == topic) ds.queue_contracts with
  | none => (.error ("Queue contract '" ++ topic ++ "' not found"), ds)
  | some idx => (.ok (), { ds with queue_contracts := ds.queue_contracts.eraseIdx idx })

/-- `AppState::upsert_nosql_contract`. -/
def upsert_nosql_contract (ds : Datasource) (nc : NosqlContract) : Datasource :=
  match position (fun n => n.entity_name == nc.entity_name) ds.nosql_contracts with
  | some idx => { ds with nosql_contracts := ds.nosql_contracts.set idx nc }
  | none => { ds with nosql_contracts := ds.nosql_contracts ++ [nc] }

/-- `AppState::delete_nosql_contract`. -/
def delete_nosql_contract (ds : Datasource) (entity : String) :
    Except String Unit × Datasource :=
  match position (fun n => n.entity_name == entity) ds.nosql_contracts with
  | none => (.error ("NoSQL contract '" ++ entity ++ "' not found"), ds)
  | some idx => (.ok (), { ds with nosql_contracts := ds.nosql_contracts.eraseIdx idx })

/-- `AppState::upsert_proto_contract`. -/
def upsert_proto_contract (ds : Datasource) (pc : ProtoContract) : Datasource :=
  match position (fun p => p.name == pc.name) ds.proto_contracts with
  | some idx => { ds with proto_contracts := ds.proto_contracts.set idx pc }
  | none => { ds with proto_contracts := ds.proto_contracts ++ [pc] }

/-- `AppState::delete_proto_contract`. -/
def delete_proto_contract (ds : Datasource) (name : String) :
    Except String Unit × Datasource :=
  match position (fun p => p.name == name) ds.proto_contracts with
  | none => (.error ("Proto contract '" ++ name ++ "' not found"), ds)
  | some idx => (.ok (), { ds with proto_contracts := ds.proto_contracts.eraseIdx idx })

-- ── JSON serialization (`serde_json::to_string_pretty`) ──────────

/-- Lowercase hexadecimal digit, as serde_json's escape table uses. -/
def hexDigit (n : Nat) : Char :=
  if n < 10 then Char.ofNat (48 + n) else Char.ofNat (87 + n)

/-- serde_json's escaping of one character inside a JSON string. -/
def escapeChar (c : Char) : String :=
  if c = '"' then "\\\""
  else if c = '\\' then "\\\\"
  else if c = '\n' then "\\n"
  else if c = '\r' then "\\r"
  else if c = '\t' then "\\t"
  else if c = Char.ofNat 8 then "\\b"
  else if c = Char.ofNat 12 then "\\f"
  else if c.toNat < 32 then
    "\\u00" ++ String.mk [hexDigit (c.toNat / 16), hexDigit (c.toNat % 16)]
  else c.toString

/-- A JSON string literal with serde_json's escaping. -/
def escapeString (s : String) : String :=
  "\"" ++ String.join (s.toList.map escapeChar) ++ "\""

/-- `d` levels of serde_json's pretty-printer indentation (two spaces each). -/
def indentOf (d : Nat) : String :=
  String.join (List.replicate d "  ")

/-- `serde_json::to_string_pretty` at indentation depth `d`: 2-space indent,
elements one per line, empty arrays and objects rendered inline. -/
def Json.render (j : Json) (d : Nat) : String :=
  match j with
  | .null => "null"
  | .bool b => cond b "true" "false"
  | .num n => toString n
  | .str s => escapeString s
  | .arr [] => "[]"
  | .arr (x :: xs) =>
      "[\n" ++
        String.intercalate ",\n"
          ((x :: xs).attach.map (fun e => indentOf (d + 1) ++ Json.render e.1 (d + 1))) ++
        "\n" ++ indentOf d ++ "]"
  | .obj [] => "\x7b\x7d"
  | .obj (f :: fs) =>
      "\x7b\n" ++
        String.intercalate ",\n"
          ((f :: fs).attach.map (fun e =>
            indentOf (d + 1) ++ escapeString e.1.1 ++ ": " ++ Json.render e.1.2 (d + 1))) ++
        "\n" ++ indentOf d ++ "\x7d"
termination_by sizeOf j
decreasing_by
  · have h := List.sizeOf_lt_of_mem e.2
    simp only [Json.arr.sizeOf_spec]
    omega
  · have h := List.sizeOf_lt_of_mem e.2
    obtain ⟨⟨k, v⟩, _⟩ := e
    simp only [Json.obj.sizeOf_spec, Prod.mk.sizeOf_spec] at *
    omega

/-- `serde_json::to_string_pretty`. -/
def toStringPretty (j : Json) : String := j.render 0

-- ── serde `Serialize` of the model types (`src/model.rs`) ────────

/-- A `#[serde(skip_serializing_if = "Option::is_none")]` field: absent when
`none`, present otherwise. -/
def optField (k : String) : Option Json → List (String × Json)
  | none => []
  | some v => [(k, v)]

/-- A `Vec<String>` as JSON. -/
def strListJson (l : List String) : Json := .arr (l.map Json.str)

/-- `Serialize` for `ServiceQueueConfig`. -/
def ServiceQueueConfig.toJson (c : ServiceQueueConfig) : Json :=
  .obj (optField "publish_queues" (c.publish_queues.map strListJson) ++
        optField "subscribe_queues" (c.subscribe_queues.map strListJson))

/-- `Serialize` for `ServiceDefinition`: `service_type` renamed to `"type"`,
`None` options skipped, `metadata` skipped when empty. -/
def ServiceDefinition.toJson (s : ServiceDefinition) : Json :=
  .obj ([("name", Json.str s.name), ("type", Json.str s.service_type)] ++
        optField "github_repo" (s.github_repo.map Json.str) ++
        optField "description" (s.description.map Json.str) ++
        optField "grpc_servers" (s.grpc_servers.map strListJson) ++
        optField "grpc_clients" (s.grpc_clients.map strListJson) ++
        optField "queue" (s.queue.map ServiceQueueConfig.toJson) ++
        optField "is_http_server" (s.is_http_server.map Json.bool) ++
        (if s.metadata.isEmpty then []
         else [("metadata", Json.obj (s.metadata.map (fun kv => (kv.1, Json.str kv.2))))]))

/-- `Serialize` for `SchemaField`. -/
def SchemaField.toJson (f : SchemaField) : Json :=
  .obj ([("name", Json.str f.name), ("field_type", Json.str f.field_type)] ++
        optField "description" (f.description.map Json.str))

/-- `Serialize` for `MessageSchema`. -/
def MessageSchema.toJson (m : MessageSchema) : Json :=
  .obj ([("name", Json.str m.name),
         ("fields", Json.arr (m.fields.map SchemaField.toJson))] ++
        optField "notes" (m.notes.map Json.str))

/-- `Serialize` for `QueueContract`. -/
def QueueContract.toJson (q : QueueContract) : Json :=
  .obj ([("topic_name", Json.str q.topic_name)] ++
        optField "description" (q.description.map Json.str) ++
        optField "message_schema" (q.message_schema.map MessageSchema.toJson))

/-- `Serialize` for `NosqlContract`. -/
def NosqlContract.toJson (n : NosqlContract) : Json :=
  .obj ([("entity_name", Json.str n.entity_name)] ++
        optField "table_name" (n.table_name.map Json.str) ++
        optField "description" (n.description.map Json.str) ++
        optField "schema" (n.schema.map MessageSchema.toJson))

/-- `Serialize` for `ProtoContract`. -/
def ProtoContract.toJson (p : ProtoContract) : Json :=
  .obj [("name", Json.str p.name), ("raw_proto", Json.str p.raw_proto)]

/-- `Serialize` for `Datasource`. -/
def Datasource.toJson (ds : Datasource) : Json :=
  .obj [("services", Json.arr (ds.services.map ServiceDefinition.toJson)),
        ("queue_contracts", Json.arr (ds.queue_contracts.map QueueContract.toJson)),
        ("nosql_contracts", Json.arr (ds.nosql_contracts.map NosqlContract.toJson)),
        ("proto_contracts", Json.arr (ds.proto_contracts.map ProtoContract.toJson))]

-- ── src/handlers/mcp.rs: JSON-RPC types ──────────────────────────

/-- `JsonRpcRequest` of `src/handlers/mcp.rs`.  `id = none` marks a
notification (field absent, or JSON `null`, which `Option<Value>`
deserializes to `None`); `params` defaults to JSON `null`. -/
structure JsonRpcRequest where
  jsonrpc : String
  id : Option Json
  method : String
  params : Json

/-- `JsonRpcError` of `src/handlers/mcp.rs`. -/
structure JsonRpcError where
  code : Int
  message : String
deriving DecidableEq

/-- `JsonRpcResponse` of `src/handlers/mcp.rs`. -/
structure JsonRpcResponse where
  jsonrpc : String
  id : Json
  result : Option Json
  error : Option JsonRpcError

/-- `JsonRpcResponse::success`. -/
def JsonRpcResponse.mkSuccess (id result : Json) : JsonRpcResponse :=
  { jsonrpc := "2.0", id := id, result := some result, error := none }

/-- `JsonRpcResponse::error`. -/
def JsonRpcResponse.mkError (id : Json) (code : Int) (message : String) : JsonRpcResponse :=
  { jsonrpc := "2.0", id := id, result := none, error := some ⟨code, message⟩ }

/-- `serde_json::from_value::<JsonRpcRequest>`: derived deserialization.

From an object (the derive's `visit_map`): `jsonrpc` and `method` must be
present strings; `id` is optional (JSON `null` reads as `None`); `params`
takes `#[serde(default)]`, i.e. JSON `null`, when absent; unknown fields are
ignored.

From an array (the derive's `visit_seq`, which `Value`'s
`deserialize_struct` feeds arrays into): the fields read positionally in
declaration order — element 0 a string `jsonrpc`, element 1 the `id` (JSON
`null` reads as `None`), element 2 a string `method`, and element 3, when the
array has one, `params`; a three-element array leaves `params` to its
`#[serde(default)]`.  Shorter arrays fail with `invalid_length` (only
`params` carries a default), and `serde_json`'s `visit_array` rejects
trailing elements, so longer arrays fail too.

Every other JSON value fails with `invalid_type`. -/
def parseJsonRpcRequest (v : Json) : Option JsonRpcRequest :=
  match v with
  | .obj _ =>
      match (v.getField "jsonrpc").bind Json.asString with
      | none => none
      | some jsonrpc =>
        match (v.getField "method").bind Json.asString with
        | none => none
        | some method =>
            let id := match v.getField "id" with
              | none => none
              | some .null => none
              | some idv => some idv
            let params := (v.getField "params").getD Json.null
            some { jsonrpc := jsonrpc, id := id, method := method, params := params }
  | .arr [j, i, m] =>
      match j.asString, m.asString with
      | some jsonrpc, some method =>
          some { jsonrpc := jsonrpc,
                 id := match i with | .null => none | _ => some i,
                 method := method, params := Json.null }
      | _, _ => none
  | .arr [j, i, m, p] =>
      match j.asString, m.asString with
      | some jsonrpc, some method =>
          some { jsonrpc := jsonrpc,
                 id := match i with | .null => none | _ => some i,
                 method := method, params := p }
      | _, _ => none
  | _ => none

/-- The positional path at work: a four-element array body deserializes into
the same envelope as its object spelling, and a too-short or trailing-element
array fails. -/
theorem parse_array_body_positional :
    parseJsonRpcRequest (Json.arr [Json.str "2.0", Json.num 1,
        Json.str "tools/list", Json.obj []])
      = some { jsonrpc := "2.0", id := some (Json.num 1), method := "tools/list",
               params := Json.obj [] }
  ∧ parseJsonRpcRequest (Json.arr [Json.str "2.0", Json.null, Json.str "tools/list"])
      = some { jsonrpc := "2.0", id := none, method := "tools/list",
               params := Json.null }
  ∧ parseJsonRpcRequest (Json.arr [Json.str "2.0", Json.num 1]) = none
  ∧ parseJsonRpcRequest (Json.arr [Json.str "2.0", Json.num 1,
        Json.str "tools/list", Json.obj [], Json.null]) = none :=
  ⟨rfl, rfl, rfl, rfl⟩

-- ── src/handlers/mcp.rs: method dispatch ─────────────────────────

/-- `handle_initialize` of `src/handlers/mcp.rs` (the Lean name drops the
underscore spelling of the Rust function). -/
def handleInitialize (id : Json) : JsonRpcResponse :=
  .mkSuccess id (.obj
    [("protocolVersion", .str "2024-11-05"),
     ("capabilities", .obj [("tools", .obj [])]),
     ("serverInfo", .obj
       [("name", .str "codegang-datasource"),
        ("version", .str "0.1.0")])])

/-- One tool descriptor of `handle_tools_list`'s static JSON: a name, a
description, and an input schema listing `(property, type, description)`
triples and the required property names. -/
def toolDescriptor (name description : String)
    (props : List (String × String × String)) (required : List String) : Json :=
  .obj [("name", .str name),
        ("description", .str description),
        ("inputSchema", .obj
          [("type", .str "object"),
           ("properties", .obj (props.map (fun p =>
             (p.1, Json.obj [("type", Json.str p.2.1),
                             ("description", Json.str p.2.2)])))),
           ("required", strListJson required)])]

/-- `handle_tools_list` of `src/handlers/mcp.rs`: the static nine-tool
descriptor list. -/
def handle_tools_list (id : Json) : JsonRpcResponse :=
  .mkSuccess id (.obj [("tools", .arr
    [toolDescriptor "get_datasource"
      "Get the full datasource including all services, queue contracts, nosql contracts, and proto contracts."
      [] [],
     toolDescriptor "list_services"
      "List all microservices with their gRPC servers/clients, queue bindings, and metadata."
      [] [],
     toolDescriptor "get_service"
      "Get a single microservice definition by name."
      [("name", "string", "Service name, e.g. 'contest-engine-grpc'")] ["name"],
     toolDescriptor "list_queue_contracts"
      "List all service-bus queue/topic contracts with their message schemas."
      [] [],
     toolDescriptor "get_queue_contract"
      "Get a single queue/topic contract by topic name, including its message schema."
      [("topic", "string", "Topic name, e.g. 'user-registered'")] ["topic"],
     toolDescriptor "list_nosql_contracts"
      "List all NoSQL entity contracts with their table names and schemas."
      [] [],
     toolDescriptor "get_nosql_contract"
      "Get a single NoSQL entity contract by entity name, including its schema."
      [("entity", "string", "Entity name, e.g. 'BrokerContestSettings'")] ["entity"],
     toolDescriptor "list_proto_contracts"
      "List all protobuf/gRPC contracts with their raw .proto definitions."
      [] [],
     toolDescriptor "get_proto_contract"
      "Get a single protobuf/gRPC contract by name, including the raw .proto file text."
      [("name", "string", "Proto contract name, e.g. 'UsersGrpcService'")] ["name"]])])

/-- The `match tool_name` of `handle_tools_call`: `some` the `result` text a
known tool computes, `none` for the `_` arm that early-returns the
"Unknown tool" error. -/
def toolCallResult (tool_name : String) (args : Json) (state : Datasource) :
    Option String :=
  if tool_name == "get_datasource" then
    some (toStringPretty (Datasource.toJson (get_datasource state)))
  else if tool_name == "list_services" then
    some (toStringPretty (Json.arr ((get_services state).map ServiceDefinition.toJson)))
  else if tool_name == "get_service" then
    let name := ((args.getField "name").bind Json.asString).getD ""
    some (match get_service state name with
      | some s => toStringPretty s.toJson
      | none => "Service '" ++ name ++ "' not found")
  else if tool_name == "list_queue_contracts" then
    some (toStringPretty (Json.arr ((get_queue_contracts state).map QueueContract.toJson)))
  else if tool_name == "get_queue_contract" then
    let topic := ((args.getField "topic").bind Json.asString).getD ""
    some (match get_queue_contract state topic with
      | some q => toStringPretty q.toJson
      | none => "Queue contract '" ++ topic ++ "' not found")
  else if tool_name == "list_nosql_contracts" then
    some (toStringPretty (Json.arr ((get_nosql_contracts state).map NosqlContract.toJson)))
  else if tool_name == "get_nosql_contract" then
    let entity := ((args.getField "entity").bind Json.asString).getD ""
    some (match get_nosql_contract state entity with
      | some n => toStringPretty n.toJson
      | none => "NoSQL contract '" ++ entity ++ "' not found")
  else if tool_name == "list_proto_contracts" then
    some (toStringPretty (Json.arr ((get_proto_contracts state).map ProtoContract.toJson)))
  else if tool_name == "get_proto_contract" then
    let name := ((args.getField "name").bind Json.asString).getD ""
    some (match get_proto_contract state name with
      | some p => toStringPretty p.toJson
      | none => "Proto contract '" ++ name ++ "' not found")
  else none

/-- The `{"content": [{"type": "text", "text": result}]}` success payload of
`handle_tools_call`. -/
def contentEnvelope (result : String) : Json :=
  .obj [("content", .arr [.obj [("type", .str "text"), ("text", .str result)]])]

/-- `handle_tools_call` of `src/handlers/mcp.rs`: tool name from
`params.name` (empty string when absent or not a string), arguments from
`params.arguments` (empty object when absent); a known tool's text is wrapped
in a content envelope, an unknown tool early-returns error `-32602`. -/
def handle_tools_call (params : Json) (state : Datasource) (id : Json) :
    JsonRpcResponse :=
  let tool_name := ((params.getField "name").bind Json.asString).getD ""
  let args := (params.getField "arguments").getD (Json.obj [])
  match toolCallResult tool_name args state with
  | some result => .mkSuccess id (contentEnvelope result)
  | none => .mkError id (-32602) ("Unknown tool: " ++ tool_name)

/-- `handle_method` of `src/handlers/mcp.rs`. -/
def handle_method (method : String) (params : Json) (state : Datasource)
    (id : Json) : JsonRpcResponse :=
  if method == "initialize" then handleInitialize id
  else if method == "tools/list" then handle_tools_list id
  else if method == "tools/call" then handle_tools_call params state id
  else .mkError id (-32601) ("Method not found: " ++ method)

-- ── src/handlers/mcp.rs: POST /message ───────────────────────────

/-- An event enqueued on a session's channel.  The code serializes the
JSON-RPC response to a string before wrapping it in `sse::Data`; the model
keeps the structured response, which is what every checked property
inspects. -/
inductive SseEvent where
  | data (event : String) (payload : JsonRpcResponse)
  | comment (text : String)

/-- The HTTP statuses `message_handler` can answer with. -/
inductive HttpStatus where
  | accepted
  | notFound
deriving DecidableEq

/-- What one `message_handler` call does: its HTTP answer and the events it
enqueued (via `tx.send`) onto the queried session's channel.  No other
session's channel is ever touched by the code. -/
structure HandlerOutput where
  status : HttpStatus
  enqueued : List SseEvent

/-- Modelled from the spec: serde's human-readable description of the failed
parse ("the offending message"), interpolated after "Parse error: ".  Its text
is produced inside serde_json and is opaque to every property verified here,
so it is carried as an uninterpreted placeholder. -/
def serdeErrorText (_body : Json) : String := ""

/-- `message_handler` of `src/handlers/mcp.rs`.  The session registry is the
list of registered session ids (the value a registered id maps to is its
channel, whose content this call's `enqueued` records). -/
def message_handler (sessions : List String) (session_id : String) (body : Json)
    (state : Datasource) : HandlerOutput :=
  if sessions.contains session_id then
    match parseJsonRpcRequest body with
    | none =>
        { status := .accepted,
          enqueued := [.data "message"
            (JsonRpcResponse.mkError Json.null (-32700)
              ("Parse error: " ++ serdeErrorText body))] }
    | some req =>
        match req.id with
        | none => { status := .accepted, enqueued := [] }
        | some id =>
            { status := .accepted,
              enqueued := [.data "message" (handle_method req.method req.params state id)] }
  else { status := .notFound, enqueued := [] }

-- ── src/handlers/mcp.rs: GET /sse stream lifecycle ───────────────

/-- How the `async_stream` generator of `sse_handler` stops running. -/
inductive StreamExit where
  | channelClosed
  | transportDisconnect

/-- Whether the statements placed after the generator's `loop` — the
`sessions_clone.write().await.remove(&session_id_clone)` cleanup — execute.
The loop `break`s only on `Ok(None)` (the channel reports closed), after which
the trailing cleanup statement runs.  A transport-level client disconnect
instead makes the server drop the response stream at its current suspension
point, and a dropped `async_stream` generator never resumes: the statements
after the loop do not run.  (Drop semantics of the suspended generator the
`async_stream::stream!` construct of the source builds.) -/
def cleanupRuns : StreamExit → Bool
  | .channelClosed => true
  | .transportDisconnect => false

/-- The session registry once the stream opened for `session_id` has
terminated with exit `e`: the cleanup statement removes the entry; a dropped
generator leaves the registry as it was. -/
def sessionsAfterExit (sessions : List String) (session_id : String)
    (e : StreamExit) : List String :=
  if cleanupRuns e then sessions.erase session_id else sessions

-- ── List-level facts about `position` (`iter().position`) ────────

theorem position_eq_none_iff {α : Type} (p : α → Bool) (l : List α) :
    position p l = none ↔ ∀ x ∈ l, p x = false := by
  simp [position, List.findIdx?_eq_none_iff]

theorem position_eq_some {α : Type} (p : α → Bool) (l : List α) (i : Nat)
    (h : position p l = some i) :
    ∃ hi : i < l.length, p (l.get ⟨i, hi⟩) = true := by
  rw [position, List.findIdx?_eq_some_iff_findIdx_eq] at h
  obtain ⟨hlen, hidx⟩ := h
  subst hidx
  exact ⟨hlen, List.findIdx_getElem⟩

theorem position_isSome_iff {α : Type} (p : α → Bool) (l : List α) :
    (position p l).isSome = true ↔ ∃ x ∈ l, p x = true := by
  rw [position, List.findIdx?_isSome, List.any_eq_true]

/-- Setting an index of a list to the element already there changes nothing. -/
theorem set_getElem_self {α : Type} :
    ∀ (l : List α) (i : Nat) (h : i < l.length), l.set i l[i] = l
  | _ :: _, 0, _ => rfl
  | a :: l, i + 1, h =>
      congrArg (a :: ·) (set_getElem_self l i (Nat.lt_of_succ_lt_succ h))

/-- The keyed replace branch of an upsert keeps the key list unchanged, hence
keeps it duplicate-free. -/
theorem nodup_map_set_position {α : Type} (key : α → String) (x : α) (l : List α)
    (h : (l.map key).Nodup) (idx : Nat)
    (hpos : position (fun y => key y == key x) l = some idx) :
    ((l.set idx x).map key).Nodup := by
  obtain ⟨hlen, hp⟩ := position_eq_some _ _ _ hpos
  have hkey : key (l.get ⟨idx, hlen⟩) = key x := by
    simpa using hp
  have hmaplen : idx < (l.map key).length := by simpa using hlen
  have : (l.set idx x).map key = l.map key := by
    rw [List.map_set]
    have : key x = (l.map key)[idx] := by
      rw [List.getElem_map]
      exact hkey.symm
    rw [this, set_getElem_self]
  rw [this]
  exact h

/-- The append branch of an upsert adds a key no existing entry carries. -/
theorem nodup_map_append_position {α : Type} (key : α → String) (x : α) (l : List α)
    (h : (l.map key).Nodup)
    (hpos : position (fun y => key y == key x) l = none) :
    ((l ++ [x]).map key).Nodup := by
  rw [List.map_append, List.nodup_append]
  refine ⟨h, List.nodup_singleton _, ?_⟩
  intro a ha hax
  simp only [List.map_cons, List.map_nil, List.mem_singleton] at hax
  subst hax
  rw [position_eq_none_iff] at hpos
  obtain ⟨y, hy, hkey⟩ := List.mem_map.mp ha
  have := hpos y hy
  simp [hkey] at this

/-- Removing the first key match from a duplicate-free collection removes
exactly the entries (there is at most one) carrying that key. -/
theorem eraseIdx_findIdx_eq_filter {α : Type} (key : α → String) (k : String) :
    ∀ l : List α, (l.map key).Nodup → (∃ y ∈ l, key y = k) →
      l.eraseIdx (l.findIdx (fun y => key y == k)) =
        l.filter (fun y => !(key y == k))
  | [], _, hex => by simp at hex
  | x :: xs, hnd, hex => by
      rw [List.findIdx_cons]
      by_cases hx : key x = k
      · have hpx : (key x == k) = true := by simp [hx]
        rw [hpx, cond_true, List.eraseIdx_cons_zero, List.filter_cons]
        rw [if_neg (by simp [hpx])]
        have hknotin : k ∉ xs.map key := by
          rw [List.map_cons, List.nodup_cons] at hnd
          rw [← hx]
          exact hnd.1
        symm
        rw [List.filter_eq_self]
        intro y hy
        simp only [Bool.not_eq_true']
        rw [beq_eq_false_iff_ne]
        intro hyk
        exact hknotin (hyk ▸ List.mem_map_of_mem key hy)
      · have hpx : (key x == k) = false := by simp [hx]
        rw [hpx, cond_false, List.eraseIdx_cons_succ, List.filter_cons]
        simp only [hpx, Bool.not_false, if_pos rfl]
        congr 1
        have hnd' : (xs.map key).Nodup := by
          rw [List.map_cons, List.nodup_cons] at hnd
          exact hnd.2
        have hex' : ∃ y ∈ xs, key y = k := by
          obtain ⟨y, hy, hyk⟩ := hex
          rcases List.mem_cons.mp hy with rfl | hmem
          · exact absurd hyk hx
          · exact ⟨y, hmem, hyk⟩
        exact eraseIdx_findIdx_eq_filter key k xs hnd' hex'

/-- `position` of a key match, rewritten through `findIdx`. -/
theorem position_key_some_eq_findIdx {α : Type} (p : α → Bool) (l : List α)
    (i : Nat) (h : position p l = some i) : i = l.findIdx p := by
  rw [position, List.findIdx?_eq_some_iff_findIdx_eq] at h
  exact h.2.symm

-- ── Observation helpers used by the claim statements ─────────────

/-- The tool names listed in a `tools/list` response payload. -/
def toolNames (r : JsonRpcResponse) : List String :=
  match r.result with
  | some v =>
      match v.getField "tools" with
      | some (.arr ts) => ts.filterMap (fun t => (t.getField "name").bind Json.asString)
      | _ => []
  | none => []

/-- The text of the first content item of a tools/call success payload. -/
def contentText (r : JsonRpcResponse) : Option String :=
  r.result.bind (fun v =>
    match v.getField "content" with
    | some (.arr (c :: _)) => (c.getField "text").bind Json.asString
    | _ => none)

-- ── Claim theorems ───────────────────────────────────────────────

/-- C1: for every open session and every request body that fails to parse as a
JSON-RPC envelope, `message_handler` enqueues exactly one response onto that
session's channel, carrying error code `-32700` (parse error) and a null id,
and the POST itself still returns the accepted status. -/
theorem parse_failure_enqueues_one_parse_error (sessions : List String)
    (session_id : String) (body : Json) (state : Datasource)
    (hopen : sessions.contains session_id = true)
    (hfail : parseJsonRpcRequest body = none) :
    ∃ msg, message_handler sessions session_id body state =
      { status := .accepted,
        enqueued := [.data "message" (JsonRpcResponse.mkError Json.null (-32700) msg)] } := by
  refine ⟨"Parse error: " ++ serdeErrorText body, ?_⟩
  have hmem : session_id ∈ sessions := by simpa using hopen
  simp [message_handler, hmem, hfail]

theorem parse_failure_enqueues_one_parse_error_witness :
    ∃ msg, message_handler ["s1"] "s1" (Json.str "not an envelope") emptyDatasource =
      { status := .accepted,
        enqueued := [.data "message" (JsonRpcResponse.mkError Json.null (-32700) msg)] } :=
  parse_failure_enqueues_one_parse_error ["s1"] "s1" (Json.str "not an envelope")
    emptyDatasource rfl rfl

/-- C2: a well-formed envelope without an `id` (a notification) submitted to a
registered session enqueues nothing onto the session's channel and gets the
accepted POST response; `message_handler` returns before any method
dispatch. -/
theorem notification_produces_no_events (sessions : List String)
    (session_id : String) (body : Json) (state : Datasource)
    (req : JsonRpcRequest)
    (hopen : sessions.contains session_id = true)
    (hparse : parseJsonRpcRequest body = some req)
    (hnotif : req.id = none) :
    message_handler sessions session_id body state =
      { status := .accepted, enqueued := [] } := by
  have hmem : session_id ∈ sessions := by simpa using hopen
  simp [message_handler, hmem, hparse, hnotif]

theorem notification_produces_no_events_witness :
    message_handler ["s1"] "s1"
      (Json.obj [("jsonrpc", Json.str "2.0"), ("method", Json.str "tools/list")])
      emptyDatasource = { status := .accepted, enqueued := [] } :=
  notification_produces_no_events ["s1"] "s1"
    (Json.obj [("jsonrpc", Json.str "2.0"), ("method", Json.str "tools/list")])
    emptyDatasource
    { jsonrpc := "2.0", id := none, method := "tools/list", params := Json.null }
    rfl rfl rfl

/-- C3: a session id not present in the registry gets a not-found POST
response, and nothing is enqueued onto any channel (`message_handler` returns
before the body is parsed or dispatched, whatever the body is). -/
theorem unknown_session_not_found (sessions : List String) (session_id : String)
    (body : Json) (state : Datasource)
    (hclosed : sessions.contains session_id = false) :
    message_handler sessions session_id body state =
      { status := .notFound, enqueued := [] } := by
  have hmem : ¬ session_id ∈ sessions := by simpa using hclosed
  simp [message_handler, hmem]

theorem unknown_session_not_found_witness :
    message_handler ["other"] "gone" (Json.str "ignored") emptyDatasource =
      { status := .notFound, enqueued := [] } :=
  unknown_session_not_found ["other"] "gone" (Json.str "ignored") emptyDatasource rfl

/-- C4: when no service named `X` is in the catalog, a `tools/call` of
`get_service` with arguments `{"name": X}` yields a success response (result
present, error absent) whose content text is exactly `Service 'X' not
found`. -/
theorem get_service_absent_yields_not_found (state : Datasource) (X : String)
    (id : Json)
    (habsent : ∀ s ∈ state.services, s.name ≠ X) :
    handle_method "tools/call"
      (Json.obj [("name", Json.str "get_service"),
                 ("arguments", Json.obj [("name", Json.str X)])]) state id =
      JsonRpcResponse.mkSuccess id
        (contentEnvelope ("Service '" ++ X ++ "' not found")) := by
  have hfind : get_service state X = none := by
    rw [get_service, List.find?_eq_none]
    intro s hs
    simp [habsent s hs]
  simp [handle_method, handle_tools_call, toolCallResult, Json.getField,
    Json.asString, hfind]

theorem get_service_absent_yields_not_found_witness :
    handle_method "tools/call"
      (Json.obj [("name", Json.str "get_service"),
                 ("arguments", Json.obj [("name", Json.str "X")])])
      emptyDatasource Json.null =
      JsonRpcResponse.mkSuccess Json.null
        (contentEnvelope ("Service 'X' not found")) :=
  get_service_absent_yields_not_found emptyDatasource "X" Json.null
    (by intro s hs; simp [emptyDatasource] at hs)

/-- C5: for every catalog state, `tools/list` answers with a success response
whose tool names are exactly the nine fixed names, independent of the catalog
(the handler never reads the state). -/
theorem tools_list_names_fixed (state : Datasource) (params id : Json) :
    toolNames (handle_method "tools/list" params state id) =
      ["get_datasource", "list_services", "get_service", "list_queue_contracts",
       "get_queue_contract", "list_nosql_contracts", "get_nosql_contract",
       "list_proto_contracts", "get_proto_contract"] := rfl

/-- C6: every response the dispatcher builds — by `handle_initialize`,
`handle_tools_list`, `handle_tools_call`, `handle_method`, or the parse-error
path — carries exactly one of a result or an error: `result` is `some` exactly
when `error` is `none`. -/
theorem dispatcher_result_error_exclusive (method : String) (params : Json)
    (state : Datasource) (id body : Json) :
    ((handleInitialize id).result.isSome = (handleInitialize id).error.isNone)
  ∧ ((handle_tools_list id).result.isSome = (handle_tools_list id).error.isNone)
  ∧ ((handle_tools_call params state id).result.isSome
      = (handle_tools_call params state id).error.isNone)
  ∧ ((handle_method method params state id).result.isSome
      = (handle_method method params state id).error.isNone)
  ∧ ((JsonRpcResponse.mkError Json.null (-32700)
        ("Parse error: " ++ serdeErrorText body)).result.isSome
      = (JsonRpcResponse.mkError Json.null (-32700)
          ("Parse error: " ++ serdeErrorText body)).error.isNone) := by
  have hcall : ∀ (p : Json) (s : Datasource) (i : Json),
      (handle_tools_call p s i).result.isSome
        = (handle_tools_call p s i).error.isNone := by
    intro p s i
    simp only [handle_tools_call]
    split
    · rfl
    · rfl
  refine ⟨rfl, rfl, hcall params state id, ?_, rfl⟩
  simp only [handle_method]
  split_ifs
  · rfl
  · rfl
  · exact hcall params state id
  · rfl

-- ── Key uniqueness (the catalog invariant) ───────────────────────

/-- Natural keys are pairwise distinct within each of the four collections. -/
def keysUnique (ds : Datasource) : Prop :=
  (ds.services.map ServiceDefinition.name).Nodup
  ∧ (ds.queue_contracts.map QueueContract.topic_name).Nodup
  ∧ (ds.nosql_contracts.map NosqlContract.entity_name).Nodup
  ∧ (ds.proto_contracts.map ProtoContract.name).Nodup

/-- Erasing an index from a collection keeps its key list duplicate-free. -/
theorem nodup_map_eraseIdx {α : Type} (key : α → String) (l : List α) (idx : Nat)
    (h : (l.map key).Nodup) : ((l.eraseIdx idx).map key).Nodup :=
  (List.Sublist.map key (List.eraseIdx_sublist l idx)).nodup h

-- ── Concrete states for witnesses and counterexamples ────────────

/-- A service whose natural key is the empty string.  Nothing in the code
validates keys, so such an entry is storable (via `upsert_service`, a `PUT
/api/datasource`, or the catalog file read at startup). -/
def emptyNamedService : ServiceDefinition :=
  { name := "", service_type := "grpc", github_repo := none, description := none,
    grpc_servers := none, grpc_clients := none, queue := none,
    is_http_server := none, metadata := [] }

/-- A catalog state holding a service keyed by the empty string. -/
def emptyKeyState : Datasource :=
  { emptyDatasource with services := [emptyNamedService] }

/-- A service named `"a"`. -/
def svcA : ServiceDefinition :=
  { name := "a", service_type := "grpc", github_repo := none, description := none,
    grpc_servers := none, grpc_clients := none, queue := none,
    is_http_server := none, metadata := [] }

/-- A second, different service also named `"a"`. -/
def svcA2 : ServiceDefinition := { svcA with service_type := "http" }

/-- A datasource whose `services` collection repeats the key `"a"`. -/
def dupDatasource : Datasource := { emptyDatasource with services := [svcA, svcA2] }

/-- A well-formed one-service state. -/
def singleServiceState : Datasource := { emptyDatasource with services := [svcA] }

-- ── C7 ───────────────────────────────────────────────────────────

/-- A rendered JSON object with at least one field starts with an opening
brace, spelled out of its first two characters. -/
theorem render_obj_cons_head (f : String × Json) (fs : List (String × Json))
    (d : Nat) :
    ∃ rest, Json.render (.obj (f :: fs)) d = "\x7b\n" ++ rest := by
  rw [Json.render]
  rw [String.append_assoc, String.append_assoc, String.append_assoc]
  exact ⟨_, rfl⟩

/-- A string that starts with an opening brace is not the `get_service`
not-found text. -/
theorem brace_append_ne_notfound (rest : String) :
    "\x7b\n" ++ rest ≠ "Service '' not found" := by
  intro h
  have hdata := congrArg String.data h
  rw [String.data_append] at hdata
  simp at hdata

/-- C7 is false as stated: in the catalog state `emptyKeyState`, which holds a
service whose name is the empty string, `get_service` invoked with its
required argument missing degrades to the empty-string lookup — and that
lookup matches the stored entry, so the content text is the serialized
service, not a "not found" text.  (Claim C7 asserts the empty-key lookup never
matches, for every catalog state.) -/
theorem missing_arg_matches_empty_key_entry :
    contentText (handle_method "tools/call"
        (Json.obj [("name", Json.str "get_service")]) emptyKeyState Json.null)
      = some (toStringPretty emptyNamedService.toJson)
    ∧ toStringPretty emptyNamedService.toJson ≠ "Service '' not found" := by
  refine ⟨rfl, ?_⟩
  have hhead : ∃ r, toStringPretty emptyNamedService.toJson = "\x7b\n" ++ r := by
    rw [toStringPretty]
    exact render_obj_cons_head _ _ 0
  obtain ⟨r, hr⟩ := hhead
  rw [hr]
  exact brace_append_ne_notfound r

/-- C7 (amended): provided no stored entry carries the empty string as its
natural key, each lookup tool invoked with its required argument missing
degrades to an empty-string lookup that matches nothing, and the call returns
a success envelope whose text is the tool's "not found" message — not a
protocol error. -/
theorem missing_arg_not_found_when_no_empty_key (state : Datasource) (id : Json)
    (hs : ∀ s ∈ state.services, s.name ≠ "")
    (hq : ∀ q ∈ state.queue_contracts, q.topic_name ≠ "")
    (hn : ∀ n ∈ state.nosql_contracts, n.entity_name ≠ "")
    (hp : ∀ p ∈ state.proto_contracts, p.name ≠ "") :
    handle_method "tools/call" (Json.obj [("name", Json.str "get_service")]) state id
      = JsonRpcResponse.mkSuccess id (contentEnvelope "Service '' not found")
  ∧ handle_method "tools/call" (Json.obj [("name", Json.str "get_queue_contract")]) state id
      = JsonRpcResponse.mkSuccess id (contentEnvelope "Queue contract '' not found")
  ∧ handle_method "tools/call" (Json.obj [("name", Json.str "get_nosql_contract")]) state id
      = JsonRpcResponse.mkSuccess id (contentEnvelope "NoSQL contract '' not found")
  ∧ handle_method "tools/call" (Json.obj [("name", Json.str "get_proto_contract")]) state id
      = JsonRpcResponse.mkSuccess id (contentEnvelope "Proto contract '' not found") := by
  have hfs : get_service state "" = none := by
    rw [get_service, List.find?_eq_none]; intro s hm; simp [hs s hm]
  have hfq : get_queue_contract state "" = none := by
    rw [get_queue_contract, List.find?_eq_none]; intro q hm; simp [hq q hm]
  have hfn : get_nosql_contract state "" = none := by
    rw [get_nosql_contract, List.find?_eq_none]; intro n hm; simp [hn n hm]
  have hfp : get_proto_contract state "" = none := by
    rw [get_proto_contract, List.find?_eq_none]; intro p hm; simp [hp p hm]
  refine ⟨?_, ?_, ?_, ?_⟩ <;>
    simp [handle_method, handle_tools_call, toolCallResult, Json.getField,
      Json.asString, hfs, hfq, hfn, hfp]

theorem missing_arg_not_found_when_no_empty_key_witness :
    handle_method "tools/call" (Json.obj [("name", Json.str "get_service")])
        singleServiceState Json.null
      = JsonRpcResponse.mkSuccess Json.null (contentEnvelope "Service '' not found")
  ∧ handle_method "tools/call" (Json.obj [("name", Json.str "get_queue_contract")])
        singleServiceState Json.null
      = JsonRpcResponse.mkSuccess Json.null (contentEnvelope "Queue contract '' not found")
  ∧ handle_method "tools/call" (Json.obj [("name", Json.str "get_nosql_contract")])
        singleServiceState Json.null
      = JsonRpcResponse.mkSuccess Json.null (contentEnvelope "NoSQL contract '' not found")
  ∧ handle_method "tools/call" (Json.obj [("name", Json.str "get_proto_contract")])
        singleServiceState Json.null
      = JsonRpcResponse.mkSuccess Json.null (contentEnvelope "Proto contract '' not found") :=
  missing_arg_not_found_when_no_empty_key singleServiceState Json.null
    (by decide) (by decide) (by decide) (by decide)

-- ── C8 ───────────────────────────────────────────────────────────

/-- C8 is false as stated: starting from a state with unique keys
(`emptyDatasource`), `replace_datasource` — one of the store operations the
claim quantifies over — installs a datasource whose `services` collection
repeats the key `"a"`, producing a state with duplicate keys. -/
theorem replace_datasource_breaks_uniqueness :
    keysUnique emptyDatasource
    ∧ ¬ keysUnique (replace_datasource emptyDatasource dupDatasource) := by
  refine ⟨⟨by decide, by decide, by decide, by decide⟩, fun h => absurd h.1 (by decide)⟩

/-- C8 (amended): within each collection keys are unique and the keyed store
operations preserve this — upsert replaces the first key match or appends a
fresh key, delete removes at most the first key match — while
`replace_datasource`, which installs the new datasource without consulting the
old state, yields unique keys provided the installed datasource's keys are
themselves unique. -/
theorem store_ops_preserve_unique_keys (ds new : Datasource)
    (svc : ServiceDefinition) (qc : QueueContract) (nc : NosqlContract)
    (pc : ProtoContract) (sk qk nk pk : String)
    (h : keysUnique ds) :
    keysUnique (upsert_service ds svc)
  ∧ keysUnique (upsert_queue_contract ds qc)
  ∧ keysUnique (upsert_nosql_contract ds nc)
  ∧ keysUnique (upsert_proto_contract ds pc)
  ∧ keysUnique (delete_service ds sk).2
  ∧ keysUnique (delete_queue_contract ds qk).2
  ∧ keysUnique (delete_nosql_contract ds nk).2
  ∧ keysUnique (delete_proto_contract ds pk).2
  ∧ (keysUnique new → keysUnique (replace_datasource ds new)) := by
  obtain ⟨h1, h2, h3, h4⟩ := h
  refine ⟨?_, ?_, ?_, ?_, ?_, ?_, ?_, ?_, fun hn => hn⟩
  · rw [upsert_service]
    cases hpos : position (fun s => s.name == svc.name) ds.services with
    | some idx => exact ⟨nodup_map_set_position _ _ _ h1 idx hpos, h2, h3, h4⟩
    | none => exact ⟨nodup_map_append_position _ _ _ h1 hpos, h2, h3, h4⟩
  · rw [upsert_queue_contract]
    cases hpos : position (fun q => q.topic_name == qc.topic_name) ds.queue_contracts with
    | some idx => exact ⟨h1, nodup_map_set_position _ _ _ h2 idx hpos, h3, h4⟩
    | none => exact ⟨h1, nodup_map_append_position _ _ _ h2 hpos, h3, h4⟩
  · rw [upsert_nosql_contract]
    cases hpos : position (fun n => n.entity_name == nc.entity_name) ds.nosql_contracts with
    | some idx => exact ⟨h1, h2, nodup_map_set_position _ _ _ h3 idx hpos, h4⟩
    | none => exact ⟨h1, h2, nodup_map_append_position _ _ _ h3 hpos, h4⟩
  · rw [upsert_proto_contract]
    cases hpos : position (fun p => p.name == pc.name) ds.proto_contracts with
    | some idx => exact ⟨h1, h2, h3, nodup_map_set_position _ _ _ h4 idx hpos⟩
    | none => exact ⟨h1, h2, h3, nodup_map_append_position _ _ _ h4 hpos⟩
  · rw [delete_service]
    cases hpos : position (fun s => s.name == sk) ds.services with
    | none => exact ⟨h1, h2, h3, h4⟩
    | some idx => exact ⟨nodup_map_eraseIdx _ _ _ h1, h2, h3, h4⟩
  · rw [delete_queue_contract]
    cases hpos : position (fun q => q.topic_name == qk) ds.queue_contracts with
    | none => exact ⟨h1, h2, h3, h4⟩
    | some idx => exact ⟨h1, nodup_map_eraseIdx _ _ _ h2, h3, h4⟩
  · rw [delete_nosql_contract]
    cases hpos : position (fun n => n.entity_name == nk) ds.nosql_contracts with
    | none => exact ⟨h1, h2, h3, h4⟩
    | some idx => exact ⟨h1, h2, nodup_map_eraseIdx _ _ _ h3, h4⟩
  · rw [delete_proto_contract]
    cases hpos : position (fun p => p.name == pk) ds.proto_contracts with
    | none => exact ⟨h1, h2, h3, h4⟩
    | some idx => exact ⟨h1, h2, h3, nodup_map_eraseIdx _ _ _ h4⟩

theorem store_ops_preserve_unique_keys_witness :
    keysUnique (upsert_service singleServiceState svcA2)
  ∧ keysUnique (upsert_queue_contract singleServiceState
      { topic_name := "t", description := none, message_schema := none })
  ∧ keysUnique (upsert_nosql_contract singleServiceState
      { entity_name := "e", table_name := none, description := none, schema := none })
  ∧ keysUnique (upsert_proto_contract singleServiceState
      { name := "p", raw_proto := "" })
  ∧ keysUnique (delete_service singleServiceState "a").2
  ∧ keysUnique (delete_queue_contract singleServiceState "t").2
  ∧ keysUnique (delete_nosql_contract singleServiceState "e").2
  ∧ keysUnique (delete_proto_contract singleServiceState "p").2
  ∧ (keysUnique emptyDatasource →
      keysUnique (replace_datasource singleServiceState emptyDatasource)) :=
  store_ops_preserve_unique_keys singleServiceState emptyDatasource svcA2
    { topic_name := "t", description := none, message_schema := none }
    { entity_name := "e", table_name := none, description := none, schema := none }
    { name := "p", raw_proto := "" } "a" "t" "e" "p"
    ⟨by decide, by decide, by decide, by decide⟩

-- ── C9 ───────────────────────────────────────────────────────────

/-- C9: the code violates the claim.  The cleanup statement after the stream
loop runs only when the loop `break`s on a closed channel; a transport-level
client disconnect drops the generator at its suspension point instead, so the
session stays registered (`sessionsAfterExit` is unchanged) and a subsequent
submit to that id is still answered `accepted`, where the claim requires
not-found.  The channel-closed exit, by contrast, does remove the session. -/
theorem disconnect_leaves_session_registered :
    sessionsAfterExit ["s1"] "s1" StreamExit.channelClosed = []
  ∧ sessionsAfterExit ["s1"] "s1" StreamExit.transportDisconnect = ["s1"]
  ∧ (message_handler (sessionsAfterExit ["s1"] "s1" StreamExit.transportDisconnect)
      "s1"
      (Json.obj [("jsonrpc", Json.str "2.0"), ("id", Json.num 1),
                 ("method", Json.str "tools/list")])
      emptyDatasource).status = HttpStatus.accepted :=
  ⟨rfl, rfl, rfl⟩

-- ── C10 ──────────────────────────────────────────────────────────

/-- The shared shape of the four delete operations, over one collection:
first key match removed on success, error with the kind's message and the
collection untouched otherwise. -/
def deleteByKey {α : Type} (key : α → String) (msgPre msgPost k : String)
    (l : List α) : Except String Unit × List α :=
  match position (fun y => key y == k) l with
  | none => (.error (msgPre ++ k ++ msgPost), l)
  | some idx => (.ok (), l.eraseIdx idx)

theorem deleteByKey_spec {α : Type} (key : α → String) (msgPre msgPost k : String)
    (l : List α) :
    ((deleteByKey key msgPre msgPost k l).1 = .ok () ↔ ∃ y ∈ l, key y = k)
  ∧ ((∀ y ∈ l, key y ≠ k) →
      deleteByKey key msgPre msgPost k l = (.error (msgPre ++ k ++ msgPost), l))
  ∧ ((l.map key).Nodup →
      (deleteByKey key msgPre msgPost k l).2 = l.filter (fun y => !(key y == k))) := by
  cases hpos : position (fun y => key y == k) l with
  | none =>
      have hall := (position_eq_none_iff _ _).mp hpos
      refine ⟨?_, fun _ => by rw [deleteByKey, hpos], fun _ => ?_⟩
      · rw [deleteByKey, hpos]
        simp only [Except.error.injEq]
        constructor
        · intro h; exact absurd h (by simp)
        · rintro ⟨y, hy, hk⟩
          have := hall y hy
          simp [hk] at this
      · rw [deleteByKey, hpos]
        symm
        rw [List.filter_eq_self]
        intro y hy
        simp [hall y hy]
  | some idx =>
      obtain ⟨hlen, hp⟩ := position_eq_some _ _ _ hpos
      have hex : ∃ y ∈ l, key y = k :=
        ⟨l.get ⟨idx, hlen⟩, List.get_mem l idx hlen, by simpa using hp⟩
      refine ⟨?_, fun hnone => ?_, fun hnd => ?_⟩
      · rw [deleteByKey, hpos]
        simpa using hex
      · obtain ⟨y, hy, hk⟩ := hex
        exact absurd hk (hnone y hy)
      · rw [deleteByKey, hpos]
        have hidx := position_key_some_eq_findIdx _ _ _ hpos
        rw [hidx]
        exact eraseIdx_findIdx_eq_filter key k l hnd hex

theorem delete_service_eq (ds : Datasource) (k : String) :
    delete_service ds k =
      ((deleteByKey ServiceDefinition.name "Service '" "' not found" k ds.services).1,
       { ds with services :=
          (deleteByKey ServiceDefinition.name "Service '" "' not found" k ds.services).2 }) := by
  rw [delete_service, deleteByKey]
  cases position (fun s => s.name == k) ds.services <;> rfl

theorem delete_queue_contract_eq (ds : Datasource) (k : String) :
    delete_queue_contract ds k =
      ((deleteByKey QueueContract.topic_name "Queue contract '" "' not found" k
          ds.queue_contracts).1,
       { ds with queue_contracts :=
          (deleteByKey QueueContract.topic_name "Queue contract '" "' not found" k
            ds.queue_contracts).2 }) := by
  rw [delete_queue_contract, deleteByKey]
  cases position (fun q => q.topic_name == k) ds.queue_contracts <;> rfl

theorem delete_nosql_contract_eq (ds : Datasource) (k : String) :
    delete_nosql_contract ds k =
      ((deleteByKey NosqlContract.entity_name "NoSQL contract '" "' not found" k
          ds.nosql_contracts).1,
       { ds with nosql_contracts :=
          (deleteByKey NosqlContract.entity_name "NoSQL contract '" "' not found" k
            ds.nosql_contracts).2 }) := by
  rw [delete_nosql_contract, deleteByKey]
  cases position (fun n => n.entity_name == k) ds.nosql_contracts <;> rfl

theorem delete_proto_contract_eq (ds : Datasource) (k : String) :
    delete_proto_contract ds k =
      ((deleteByKey ProtoContract.name "Proto contract '" "' not found" k
          ds.proto_contracts).1,
       { ds with proto_contracts :=
          (deleteByKey ProtoContract.name "Proto contract '" "' not found" k
            ds.proto_contracts).2 }) := by
  rw [delete_proto_contract, deleteByKey]
  cases position (fun p => p.name == k) ds.proto_contracts <;> rfl

/-- C10: each delete operation succeeds exactly when an entry with the key is
present; a failing delete answers the kind's error message and leaves the
whole datasource unchanged; and under the unique-keys invariant the post-state
is the same datasource with the keyed entry filtered out of its one collection
(so on success exactly the matching entry is removed, and the other
collections are untouched). -/
theorem delete_ops_semantics (ds : Datasource) (k : String) :
    ((delete_service ds k).1 = .ok () ↔ ∃ s ∈ ds.services, s.name = k)
  ∧ ((∀ s ∈ ds.services, s.name ≠ k) →
      delete_service ds k = (.error ("Service '" ++ k ++ "' not found"), ds))
  ∧ ((ds.services.map ServiceDefinition.name).Nodup →
      (delete_service ds k).2
        = { ds with services := ds.services.filter (fun s => !(s.name == k)) })
  ∧ ((delete_queue_contract ds k).1 = .ok () ↔ ∃ q ∈ ds.queue_contracts, q.topic_name = k)
  ∧ ((∀ q ∈ ds.queue_contracts, q.topic_name ≠ k) →
      delete_queue_contract ds k = (.error ("Queue contract '" ++ k ++ "' not found"), ds))
  ∧ ((ds.queue_contracts.map QueueContract.topic_name).Nodup →
      (delete_queue_contract ds k).2
        = { ds with queue_contracts := ds.queue_contracts.filter (fun q => !(q.topic_name == k)) })
  ∧ ((delete_nosql_contract ds k).1 = .ok () ↔ ∃ n ∈ ds.nosql_contracts, n.entity_name = k)
  ∧ ((∀ n ∈ ds.nosql_contracts, n.entity_name ≠ k) →
      delete_nosql_contract ds k = (.error ("NoSQL contract '" ++ k ++ "' not found"), ds))
  ∧ ((ds.nosql_contracts.map NosqlContract.entity_name).Nodup →
      (delete_nosql_contract ds k).2
        = { ds with nosql_contracts := ds.nosql_contracts.filter (fun n => !(n.entity_name == k)) })
  ∧ ((delete_proto_contract ds k).1 = .ok () ↔ ∃ p ∈ ds.proto_contracts, p.name = k)
  ∧ ((∀ p ∈ ds.proto_contracts, p.name ≠ k) →
      delete_proto_contract ds k = (.error ("Proto contract '" ++ k ++ "' not found"), ds))
  ∧ ((ds.proto_contracts.map ProtoContract.name).Nodup →
      (delete_proto_contract ds k).2
        = { ds with proto_contracts := ds.proto_contracts.filter (fun p => !(p.name == k)) }) := by
  obtain ⟨s1, s2, s3⟩ := deleteByKey_spec ServiceDefinition.name "Service '" "' not found" k ds.services
  obtain ⟨q1, q2, q3⟩ := deleteByKey_spec QueueContract.topic_name "Queue contract '" "' not found" k ds.queue_contracts
  obtain ⟨n1, n2, n3⟩ := deleteByKey_spec NosqlContract.entity_name "NoSQL contract '" "' not found" k ds.nosql_contracts
  obtain ⟨p1, p2, p3⟩ := deleteByKey_spec ProtoContract.name "Proto contract '" "' not found" k ds.proto_contracts
  rw [delete_service_eq, delete_queue_contract_eq, delete_nosql_contract_eq,
    delete_proto_contract_eq]
  refine ⟨s1, fun h => ?_, fun h => by rw [s3 h], q1, fun h => ?_, fun h => by rw [q3 h],
    n1, fun h => ?_, fun h => by rw [n3 h], p1, fun h => ?_, fun h => by rw [p3 h]⟩
  · rw [s2 h]
  · rw [q2 h]
  · rw [n2 h]
  · rw [p2 h]

theorem delete_ops_semantics_witness :
    (delete_service singleServiceState "a").1 = .ok ()
  ∧ delete_queue_contract singleServiceState "a"
      = (.error ("Queue contract '" ++ "a" ++ "' not found"), singleServiceState)
  ∧ (delete_service singleServiceState "a").2
      = { singleServiceState with
          services := singleServiceState.services.filter (fun s => !(s.name == "a")) } := by
  have h := delete_ops_semantics singleServiceState "a"
  exact ⟨h.1.mpr ⟨svcA, by decide, rfl⟩,
    h.2.2.2.2.1 (by decide),
    h.2.2.1 (by decide)⟩

end Codegang
